import Mathlib

/-!
Verification of the WeWinThis satellite link simulator (Rust sources under
src/): telemetry codec, telemetry classifier, telemetry generator, command
queue, and performance-metrics state machines, shallowly embedded in Lean.

Machine integers are modelled as `Nat` (unsigned) and `Int` (signed) with
explicit two's-complement conversion at the wire boundary.  The u64/u32
event counters of the metrics structs are modelled as unbounded `Nat`:
Rust panics on counter overflow in debug builds, so on every non-panicking
execution the `Nat` model agrees exactly with the machine arithmetic.
Wall-clock instants are modelled as abstract `Nat` microsecond values
supplied as operation parameters.  Printing is elided: the embedded
operations keep exactly the state updates of the source.
-/

namespace WeWinThis

/-- The telemetry record (identical struct in src/src/gcs.rs and
src/src/mock_ocs/telemetry.rs): u64 timestamp, i16 temperature,
u16 battery, i16 antenna angle. -/
structure Telemetry where
  timestamp_ms : Nat
  temperature : Int
  battery_mv : Nat
  antenna_angle : Int
  deriving DecidableEq, Repr

/-- A record is representable when each field fits its machine width
(u64, i16, u16, i16). -/
def Representable (t : Telemetry) : Prop :=
  t.timestamp_ms < 2 ^ 64 ∧
  -32768 ≤ t.temperature ∧ t.temperature < 32768 ∧
  t.battery_mv < 65536 ∧
  -32768 ≤ t.antenna_angle ∧ t.antenna_angle < 32768

instance (t : Telemetry) : Decidable (Representable t) := by
  unfold Representable; infer_instance

/-- `TELEMETRY_SIZE` (gcs.rs line 5, telemetry.rs line 3). -/
def TELEMETRY_SIZE : Nat := 14

/-- Little-endian byte decomposition, `k` bytes: models
`uN::to_le_bytes`.  Byte `i` is `n / 256 ^ i % 256`. -/
def natToLeBytes : Nat → Nat → List Nat
  | 0, _ => []
  | k + 1, n => n % 256 :: natToLeBytes k (n / 256)

/-- Little-endian byte recomposition: models `uN::from_le_bytes`. -/
def leBytesToNat : List Nat → Nat
  | [] => 0
  | b :: t => b + 256 * leBytesToNat t

/-- Two's-complement image of an i16 value, as used by
`i16::to_le_bytes`: the representative of `x` modulo 2^16 in [0, 2^16). -/
def encodeI16 (x : Int) : Nat := (x % 65536).toNat

/-- Signed reading of a 16-bit two's-complement word, as performed by
`i16::from_le_bytes`. -/
def decodeI16 (n : Nat) : Int :=
  if n < 32768 then (n : Int) else (n : Int) - 65536

/-- `Telemetry::to_bytes` (src/src/mock_ocs/telemetry.rs lines 14-21):
the 14-byte little-endian wire image, fields in declaration order. -/
def Telemetry.to_bytes (t : Telemetry) : List Nat :=
  natToLeBytes 8 t.timestamp_ms ++
  natToLeBytes 2 (encodeI16 t.temperature) ++
  natToLeBytes 2 t.battery_mv ++
  natToLeBytes 2 (encodeI16 t.antenna_angle)

/-- `Telemetry::from_bytes` (src/src/gcs.rs lines 21-32): `None` when the
buffer is shorter than 14 bytes, otherwise the record read from the four
little-endian slices `[0..8]`, `[8..10]`, `[10..12]`, `[12..14]` (the
inner `try_into().ok()` never fails once the length check passed). -/
def Telemetry.from_bytes (data : List Nat) : Option Telemetry :=
  if data.length < TELEMETRY_SIZE then none
  else some
    { timestamp_ms := leBytesToNat (data.take 8)
      temperature := decodeI16 (leBytesToNat ((data.drop 8).take 2))
      battery_mv := leBytesToNat ((data.drop 10).take 2)
      antenna_angle := decodeI16 (leBytesToNat ((data.drop 12).take 2)) }

/-- Rust `i16::abs` as called on `antenna_angle` (gcs.rs line 42).  For
every value except `i16::MIN` this is the absolute value; for
`i16::MIN = -32768` the true absolute value overflows i16, and the
optimized build returns `i16::MIN` itself (a debug build panics), per the
documented overflow behavior of `i16::abs`. -/
def i16Abs (x : Int) : Int := if x = -32768 then -32768 else |x|

/-- `Telemetry::is_critical` (src/src/gcs.rs lines 34-36). -/
def Telemetry.is_critical (t : Telemetry) : Bool :=
  t.temperature > 100 || t.temperature < -40 || t.battery_mv < 3000

/-- `Telemetry::is_edge_case` (src/src/gcs.rs lines 38-43). -/
def Telemetry.is_edge_case (t : Telemetry) : Bool :=
  t.temperature < -40 || t.temperature > 100 || t.battery_mv < 3000 ||
    i16Abs t.antenna_angle > 45

/-- `TelemetryGenerator` (src/src/mock_ocs/telemetry.rs lines 37-41); the
thread-local rng handle is elided (`generate_edge_case` never uses it). -/
structure TelemetryGenerator where
  base_temperature : Int
  base_battery : Nat

/-- `TelemetryGenerator::new` (telemetry.rs lines 43-50). -/
def TelemetryGenerator.new : TelemetryGenerator :=
  { base_temperature := 20, base_battery := 8000 }

/-- `TelemetryGenerator::generate_edge_case` (telemetry.rs lines 65-104):
dispatch on `case_type % 6`. -/
def TelemetryGenerator.generate_edge_case (g : TelemetryGenerator)
    (timestamp_ms : Nat) (case_type : Nat) : Telemetry :=
  match case_type % 6 with
  | 0 => { timestamp_ms, temperature := -50, battery_mv := g.base_battery,
           antenna_angle := 0 }
  | 1 => { timestamp_ms, temperature := 125, battery_mv := g.base_battery,
           antenna_angle := 0 }
  | 2 => { timestamp_ms, temperature := g.base_temperature,
           battery_mv := 2000, antenna_angle := 0 }
  | 3 => { timestamp_ms, temperature := g.base_temperature,
           battery_mv := 0, antenna_angle := 0 }
  | 4 => { timestamp_ms, temperature := g.base_temperature,
           battery_mv := g.base_battery, antenna_angle := -90 }
  | _ => { timestamp_ms, temperature := g.base_temperature,
           battery_mv := g.base_battery, antenna_angle := 90 }

theorem natToLeBytes_length (k n : Nat) : (natToLeBytes k n).length = k := by
  induction k generalizing n with
  | zero => rfl
  | succ k ih => simp [natToLeBytes, ih]

theorem leBytesToNat_natToLeBytes (k n : Nat) (h : n < 256 ^ k) :
    leBytesToNat (natToLeBytes k n) = n := by
  induction k generalizing n with
  | zero => simp [natToLeBytes, leBytesToNat]; omega
  | succ k ih =>
    have hdiv : n / 256 < 256 ^ k := by
      rw [Nat.div_lt_iff_lt_mul (by norm_num)]
      calc n < 256 ^ (k + 1) := h
        _ = 256 ^ k * 256 := by ring
    simp [natToLeBytes, leBytesToNat, ih _ hdiv]
    omega

theorem encodeI16_lt (x : Int) : encodeI16 x < 65536 := by
  unfold encodeI16; omega

theorem decodeI16_encodeI16 (x : Int) (h1 : -32768 ≤ x) (h2 : x < 32768) :
    decodeI16 (encodeI16 x) = x := by
  unfold decodeI16 encodeI16
  split <;> omega

theorem to_bytes_length (t : Telemetry) : t.to_bytes.length = 14 := by
  simp [Telemetry.to_bytes, natToLeBytes_length]

/-- Claim C3: for every representable telemetry record (full u64 timestamp
range, full i16 temperature and antenna-angle ranges including negatives,
full u16 battery range), decoding the 14-byte buffer produced by encoding
the record succeeds and reproduces the record exactly, field for field. -/
theorem telemetry_roundtrip (t : Telemetry) (h : Representable t) :
    Telemetry.from_bytes t.to_bytes = some t := by
  obtain ⟨h1, h2, h3, h4, h5, h6⟩ := h
  obtain ⟨tms, tmp, bat, ang⟩ := t
  simp only at h1 h2 h3 h4 h5 h6
  have lA : (natToLeBytes 8 tms).length = 8 := natToLeBytes_length 8 _
  have lB : (natToLeBytes 2 (encodeI16 tmp)).length = 2 := natToLeBytes_length 2 _
  unfold Telemetry.from_bytes
  rw [if_neg (by simp [to_bytes_length, TELEMETRY_SIZE])]
  have hA : (Telemetry.to_bytes ⟨tms, tmp, bat, ang⟩).take 8 = natToLeBytes 8 tms := by
    unfold Telemetry.to_bytes
    rw [List.append_assoc, List.append_assoc]
    exact List.take_left' lA
  have hd8 : (Telemetry.to_bytes ⟨tms, tmp, bat, ang⟩).drop 8 =
      natToLeBytes 2 (encodeI16 tmp) ++
        (natToLeBytes 2 bat ++ natToLeBytes 2 (encodeI16 ang)) := by
    unfold Telemetry.to_bytes
    rw [List.append_assoc, List.append_assoc]
    exact List.drop_left' lA
  have hd10 : (Telemetry.to_bytes ⟨tms, tmp, bat, ang⟩).drop 10 =
      natToLeBytes 2 bat ++ natToLeBytes 2 (encodeI16 ang) := by
    unfold Telemetry.to_bytes
    rw [List.append_assoc (natToLeBytes 8 tms ++ _)]
    exact List.drop_left' (by simp [natToLeBytes_length])
  have hd12 : (Telemetry.to_bytes ⟨tms, tmp, bat, ang⟩).drop 12 =
      natToLeBytes 2 (encodeI16 ang) := by
    unfold Telemetry.to_bytes
    exact List.drop_left' (by simp [natToLeBytes_length])
  have h256 : (256 : Nat) ^ 8 = 2 ^ 64 := by norm_num
  have h2562 : (65536 : Nat) = 256 ^ 2 := by norm_num
  simp only [Option.some.injEq, Telemetry.mk.injEq]
  refine ⟨?_, ?_, ?_, ?_⟩
  · rw [hA, leBytesToNat_natToLeBytes 8 _ (by omega)]
  · rw [hd8, List.take_left' lB,
      leBytesToNat_natToLeBytes 2 _ (by have := encodeI16_lt tmp; omega)]
    exact decodeI16_encodeI16 _ h2 h3
  · rw [hd10, List.take_left' (natToLeBytes_length 2 _),
      leBytesToNat_natToLeBytes 2 _ (by omega)]
  · rw [hd12, List.take_of_length_le (by simp [natToLeBytes_length]),
      leBytesToNat_natToLeBytes 2 _ (by have := encodeI16_lt ang; omega)]
    exact decodeI16_encodeI16 _ h5 h6

/-- Witness for C3 at a concrete record with negative temperature and
negative antenna angle. -/
theorem telemetry_roundtrip_witness :
    Representable ⟨123456789, -17, 5000, -44⟩ ∧
      Telemetry.from_bytes (Telemetry.to_bytes ⟨123456789, -17, 5000, -44⟩) =
        some ⟨123456789, -17, 5000, -44⟩ :=
  ⟨by decide, telemetry_roundtrip ⟨123456789, -17, 5000, -44⟩ (by decide)⟩

/-- Claim C6: decoding returns no value exactly on buffers shorter than 14
bytes, and on longer buffers the result depends only on the 14-byte
prefix. -/
theorem from_bytes_length_contract :
    (∀ data : List Nat, Telemetry.from_bytes data = none ↔ data.length < 14) ∧
      (∀ data : List Nat, 14 ≤ data.length →
        Telemetry.from_bytes data = Telemetry.from_bytes (data.take 14)) := by
  constructor
  · intro data
    unfold Telemetry.from_bytes TELEMETRY_SIZE
    split
    · rename_i h
      simpa using h
    · rename_i h
      simp
      omega
  · intro data h
    have hlen : (data.take 14).length = 14 := by
      simp [List.length_take]; omega
    unfold Telemetry.from_bytes TELEMETRY_SIZE
    rw [if_neg (by omega), if_neg (by omega)]
    simp [List.take_take, List.drop_take]

/-- Witness for C6 on a concrete 15-byte buffer: the 15th byte is
ignored. -/
theorem from_bytes_length_contract_witness :
    Telemetry.from_bytes [1, 2, 3, 4, 5, 6, 7, 8, 9, 10, 11, 12, 13, 14, 99] =
      Telemetry.from_bytes
        ((List.take 14) [1, 2, 3, 4, 5, 6, 7, 8, 9, 10, 11, 12, 13, 14, 99]) :=
  from_bytes_length_contract.2
    [1, 2, 3, 4, 5, 6, 7, 8, 9, 10, 11, 12, 13, 14, 99] (by decide)

/-- Claim C8: `is_critical` holds exactly when temperature exceeds 100,
temperature is below -40, or battery is below 3000 mV; the boundary values
100, -40 and 3000 themselves are not critical. -/
theorem is_critical_contract :
    (∀ t : Telemetry, t.is_critical = true ↔
        (100 < t.temperature ∨ t.temperature < -40 ∨ t.battery_mv < 3000)) ∧
      Telemetry.is_critical ⟨0, 100, 8000, 0⟩ = false ∧
      Telemetry.is_critical ⟨0, 101, 8000, 0⟩ = true ∧
      Telemetry.is_critical ⟨0, -40, 8000, 0⟩ = false ∧
      Telemetry.is_critical ⟨0, -41, 8000, 0⟩ = true ∧
      Telemetry.is_critical ⟨0, 20, 3000, 0⟩ = false ∧
      Telemetry.is_critical ⟨0, 20, 2999, 0⟩ = true := by
  refine ⟨?_, by decide, by decide, by decide, by decide, by decide, by decide⟩
  intro t
  simp [Telemetry.is_critical]
  tauto

/-- Counterexample to claim C4 as stated: at `antenna_angle = -32768`
(`i16::MIN`) the record with benign temperature and battery is not
classified as an edge case by the code, although it is not critical and
its mathematical absolute angle 32768 exceeds 45 — `i16::abs` wraps on
`i16::MIN` in optimized builds (and panics in debug builds), so the
`abs(antenna_angle) > 45` test fails there. -/
theorem is_edge_case_minangle_counterexample :
    Telemetry.is_edge_case ⟨0, 20, 8000, -32768⟩ = false ∧
      Telemetry.is_critical ⟨0, 20, 8000, -32768⟩ = false ∧
      45 < |(-32768 : Int)| := by
  refine ⟨by decide, by decide, by decide⟩

/-- Claim C4 (amended): for every record whose antenna angle is not
`i16::MIN = -32768`, `is_edge_case` holds exactly when the record is
critical or the absolute antenna angle exceeds 45; antenna angle 45 with
benign fields is not an edge case and 46 is.  (At angle `-32768` the
source computes the wrapping `i16::abs`, so only criticality counts.) -/
theorem is_edge_case_contract_amended :
    (∀ t : Telemetry, t.antenna_angle ≠ -32768 →
        (t.is_edge_case = true ↔ (t.is_critical = true ∨ 45 < |t.antenna_angle|))) ∧
      Telemetry.is_edge_case ⟨0, 20, 8000, 45⟩ = false ∧
      Telemetry.is_edge_case ⟨0, 20, 8000, 46⟩ = true := by
  refine ⟨?_, by decide, by decide⟩
  intro t h
  simp [Telemetry.is_edge_case, Telemetry.is_critical, i16Abs, h]
  tauto

/-- Witness for C4 at antenna angle 50 with benign fields. -/
theorem is_edge_case_contract_witness :
    Telemetry.is_edge_case ⟨0, 20, 8000, 50⟩ = true ↔
      (Telemetry.is_critical ⟨0, 20, 8000, 50⟩ = true ∨ 45 < |(50 : Int)|) :=
  is_edge_case_contract_amended.1 ⟨0, 20, 8000, 50⟩ (by decide)

/-- Claim C10: for every case-type byte (`% 6` covers all 256 u8 values)
and every timestamp, the generated edge-case record is classified as an
edge case by the ground station. -/
theorem generate_edge_case_always_edge (timestamp_ms case_type : Nat) :
    (TelemetryGenerator.new.generate_edge_case timestamp_ms case_type).is_edge_case
      = true := by
  have h : case_type % 6 = 0 ∨ case_type % 6 = 1 ∨ case_type % 6 = 2 ∨
      case_type % 6 = 3 ∨ case_type % 6 = 4 ∨ case_type % 6 = 5 := by omega
  rcases h with h | h | h | h | h | h <;>
    simp [TelemetryGenerator.generate_edge_case, TelemetryGenerator.new,
      Telemetry.is_edge_case, i16Abs, h]

/-! ## Command queue (src/src/mock_ocs/command.rs) -/

/-- `Command` (command.rs lines 8-15), restricted to the fields the queue
logic reads: `command_id` and `priority`.  The `command_type` and
`payload` strings are only echoed into log lines and execution records,
and the `timestamp` instant is never read by `add_command` or
`execute_next`; `arrival` models the position in the sequence of
`add_command` calls, so that insertion order is expressible. -/
structure Cmd where
  command_id : Nat
  priority : Nat
  arrival : Nat
  deriving DecidableEq, Repr

/-- `MAX_COMMAND_QUEUE_SIZE` (command.rs line 6). -/
def MAX_COMMAND_QUEUE_SIZE : Nat := 20

/-- One insertion step of a stable insertion sort by descending priority:
the element goes in front of the first entry of strictly lower priority. -/
def insertStable (a : Cmd) : List Cmd → List Cmd
  | [] => [a]
  | b :: l => if b.priority ≤ a.priority then a :: b :: l else b :: insertStable a l

/-- Model of `self.queue.sort_by_key(|c| std::cmp::Reverse(c.priority))`
(command.rs line 60): Rust slice sort is stable and sorts ascending by
`Reverse(priority)`, i.e. descending by priority with ties kept in input
order.  `sortStable` is the stable insertion sort by descending priority;
the lemmas `sortStable_perm`, `sortStable_sorted` and `sortStable_filter`
below show it is a permutation, sorted descending, and preserves the
relative order inside every equal-priority class, which characterizes the
stable sort uniquely. -/
def sortStable (l : List Cmd) : List Cmd := l.foldr insertStable []

/-- `CommandExecutor::add_command` (command.rs lines 53-65): when the
queue already holds `MAX_COMMAND_QUEUE_SIZE` entries, `queue.remove(0)`
drops the element at index 0; the new command is pushed at the back and
the whole vector re-sorted stably by descending priority. -/
def add_command (q : List Cmd) (c : Cmd) : List Cmd :=
  sortStable ((if MAX_COMMAND_QUEUE_SIZE ≤ q.length then q.drop 1 else q) ++ [c])

/-- `CommandExecutor::execute_next` (command.rs lines 67-92): `None` on an
empty queue, otherwise `queue.remove(0)` yields the front command; the
model returns the removed command together with the remaining queue (the
timing fields of the `ExecutionRecord` are elided). -/
def execute_next : List Cmd → Option (Cmd × List Cmd)
  | [] => none
  | c :: rest => some (c, rest)

/-- Enqueue a list of `(command_id, priority)` pairs into an initially
empty executor, stamping each command with its arrival index. -/
def runQueue (cmds : List (Nat × Nat)) : List Cmd :=
  (cmds.foldl (fun s p => (add_command s.1 ⟨p.1, p.2, s.2⟩, s.2 + 1)) ([], 0)).1

/-- Weak queue order: descending priority. -/
def wkle (a b : Cmd) : Prop := b.priority ≤ a.priority

/-- Strong queue order: descending priority, and ties ordered by arrival,
so a `wkle`-sorted queue whose ties respect insertion order is exactly a
`Pairwise ltC` queue. -/
def ltC (a b : Cmd) : Prop :=
  b.priority < a.priority ∨ (b.priority = a.priority ∧ a.arrival < b.arrival)

instance (a b : Cmd) : Decidable (wkle a b) := by unfold wkle; infer_instance

instance (a b : Cmd) : Decidable (ltC a b) := by unfold ltC; infer_instance

theorem mem_insertStable {d a : Cmd} {l : List Cmd} :
    d ∈ insertStable a l ↔ d = a ∨ d ∈ l := by
  induction l with
  | nil => simp [insertStable]
  | cons b t ih =>
    by_cases hb : b.priority ≤ a.priority
    · simp [insertStable, hb]
    · simp [insertStable, hb, ih]
      tauto

theorem insertStable_perm (a : Cmd) (l : List Cmd) :
    List.Perm (insertStable a l) (a :: l) := by
  induction l with
  | nil => simp [insertStable]
  | cons b t ih =>
    by_cases hb : b.priority ≤ a.priority
    · simp [insertStable, hb]
    · simp only [insertStable, hb, if_neg, ite_false]
      exact (ih.cons b).trans (List.Perm.swap a b t)

theorem sortStable_perm (l : List Cmd) : List.Perm (sortStable l) l := by
  induction l with
  | nil => rfl
  | cons a t ih => exact (insertStable_perm a (sortStable t)).trans (ih.cons a)

theorem insertStable_sorted (a : Cmd) {l : List Cmd}
    (h : List.Pairwise wkle l) : List.Pairwise wkle (insertStable a l) := by
  induction l with
  | nil => simp [insertStable, List.pairwise_cons]
  | cons b t ih =>
    obtain ⟨hb, ht⟩ := List.pairwise_cons.mp h
    by_cases hba : b.priority ≤ a.priority
    · rw [insertStable, if_pos hba]
      refine List.pairwise_cons.mpr ⟨?_, h⟩
      intro d hd
      rcases List.mem_cons.mp hd with rfl | hd
      · exact hba
      · exact le_trans (hb d hd) hba
    · rw [insertStable, if_neg hba]
      refine List.pairwise_cons.mpr ⟨?_, ih ht⟩
      intro d hd
      rcases mem_insertStable.mp hd with rfl | hd
      · exact le_of_not_le hba
      · exact hb d hd

theorem sortStable_sorted (l : List Cmd) : List.Pairwise wkle (sortStable l) := by
  induction l with
  | nil => exact List.Pairwise.nil
  | cons a t ih => exact insertStable_sorted a ih

theorem insertStable_filter (a : Cmd) (l : List Cmd) (p : Nat) :
    (insertStable a l).filter (fun c => decide (c.priority = p)) =
      if a.priority = p then a :: l.filter (fun c => decide (c.priority = p))
      else l.filter (fun c => decide (c.priority = p)) := by
  induction l with
  | nil =>
    by_cases hp : a.priority = p <;>
      simp [insertStable, List.filter_cons, hp]
  | cons b t ih =>
    by_cases hba : b.priority ≤ a.priority
    · rw [insertStable, if_pos hba]
      by_cases hp : a.priority = p <;> by_cases hb : b.priority = p <;>
        simp [List.filter_cons, hp, hb]
    · rw [insertStable, if_neg hba]
      by_cases hb : b.priority = p
      · have hap : ¬ a.priority = p := by omega
        simp [List.filter_cons, hb, ih, hap]
      · simp [List.filter_cons, hb, ih]

theorem sortStable_filter (l : List Cmd) (p : Nat) :
    (sortStable l).filter (fun c => decide (c.priority = p)) =
      l.filter (fun c => decide (c.priority = p)) := by
  induction l with
  | nil => rfl
  | cons a t ih =>
    show (insertStable a (sortStable t)).filter _ = _
    rw [insertStable_filter, ih]
    by_cases hp : a.priority = p <;> simp [List.filter_cons, hp]

/-- `sortStable` leaves an already descending list unchanged. -/
theorem sortStable_fix {l : List Cmd} (h : List.Pairwise wkle l) :
    sortStable l = l := by
  induction l with
  | nil => rfl
  | cons a t ih =>
    obtain ⟨ha, ht⟩ := List.pairwise_cons.mp h
    show insertStable a (sortStable t) = a :: t
    rw [ih ht]
    cases t with
    | nil => rfl
    | cons b t2 =>
      rw [insertStable, if_pos (show b.priority ≤ a.priority from ha b (by simp))]

/-- Insertion point of a freshly pushed element: after every entry of
priority at least its own, before the first strictly smaller one. -/
def insertAfterEq (c : Cmd) : List Cmd → List Cmd
  | [] => [c]
  | b :: l => if c.priority ≤ b.priority then b :: insertAfterEq c l else c :: b :: l

theorem mem_insertAfterEq {d c : Cmd} {l : List Cmd} :
    d ∈ insertAfterEq c l ↔ d = c ∨ d ∈ l := by
  induction l with
  | nil => simp [insertAfterEq]
  | cons b t ih =>
    by_cases hb : c.priority ≤ b.priority
    · simp [insertAfterEq, hb, ih]
      tauto
    · simp [insertAfterEq, hb]

/-- On a descending queue, the re-sort after a push is exactly the stable
insertion of the new element. -/
theorem sortStable_push {q : List Cmd} (c : Cmd) (h : List.Pairwise wkle q) :
    sortStable (q ++ [c]) = insertAfterEq c q := by
  induction q with
  | nil => rfl
  | cons a t ih =>
    obtain ⟨ha, ht⟩ := List.pairwise_cons.mp h
    show insertStable a (sortStable (t ++ [c])) = insertAfterEq c (a :: t)
    rw [ih ht]
    by_cases hc : c.priority ≤ a.priority
    · rw [insertAfterEq, if_pos hc]
      cases t with
      | nil => rw [insertAfterEq, insertStable, if_pos hc]
      | cons b t2 =>
        have hba : b.priority ≤ a.priority := ha b (by simp)
        rw [insertAfterEq]
        by_cases hcb : c.priority ≤ b.priority
        · rw [if_pos hcb, insertStable, if_pos hba]
        · rw [if_neg hcb, insertStable, if_pos hc]
    · have hac : a.priority < c.priority := lt_of_not_le hc
      rw [insertAfterEq, if_neg hc]
      have htc : insertAfterEq c t = c :: t := by
        cases t with
        | nil => rfl
        | cons b t2 =>
          have hba : b.priority ≤ a.priority := ha b (by simp)
          rw [insertAfterEq, if_neg (by omega)]
      rw [htc, insertStable, if_neg (by omega)]
      cases t with
      | nil => rfl
      | cons b t2 =>
        have hba : b.priority ≤ a.priority := ha b (by simp)
        rw [insertStable, if_pos hba]

theorem ltC_pairwise_wkle {q : List Cmd} (h : List.Pairwise ltC q) :
    List.Pairwise wkle q := by
  refine h.imp ?_
  intro a b hab
  rcases hab with h1 | ⟨h1, _⟩
  · exact le_of_lt h1
  · exact le_of_eq h1

theorem insertAfterEq_inv {q : List Cmd} {c : Cmd} (h : List.Pairwise ltC q)
    (hf : ∀ d ∈ q, d.arrival < c.arrival) :
    List.Pairwise ltC (insertAfterEq c q) := by
  induction q with
  | nil => simp [insertAfterEq, List.pairwise_cons]
  | cons a t ih =>
    obtain ⟨ha, ht⟩ := List.pairwise_cons.mp h
    by_cases hc : c.priority ≤ a.priority
    · rw [insertAfterEq, if_pos hc]
      refine List.pairwise_cons.mpr ⟨?_, ih ht (fun d hd => hf d (by simp [hd]))⟩
      intro d hd
      rcases mem_insertAfterEq.mp hd with rfl | hd
      · rcases lt_or_eq_of_le hc with h1 | h1
        · exact Or.inl h1
        · exact Or.inr ⟨h1, hf a (by simp)⟩
      · exact ha d hd
    · rw [insertAfterEq, if_neg hc]
      refine List.pairwise_cons.mpr ⟨?_, h⟩
      intro d hd
      rcases List.mem_cons.mp hd with rfl | hd
      · exact Or.inl (lt_of_not_le hc)
      · rcases ha d hd with h1 | ⟨h1, _⟩ <;> exact Or.inl (by omega)

theorem add_command_inv {q : List Cmd} {c : Cmd} (h : List.Pairwise ltC q)
    (hf : ∀ d ∈ q, d.arrival < c.arrival) :
    List.Pairwise ltC (add_command q c) := by
  unfold add_command
  have h2 : List.Pairwise ltC (if MAX_COMMAND_QUEUE_SIZE ≤ q.length then q.drop 1 else q) := by
    split
    · exact h.sublist (q.drop_sublist 1)
    · exact h
  have hf2 : ∀ d ∈ (if MAX_COMMAND_QUEUE_SIZE ≤ q.length then q.drop 1 else q),
      d.arrival < c.arrival := by
    split
    · exact fun d hd => hf d (List.mem_of_mem_drop hd)
    · exact hf
  rw [sortStable_push c (ltC_pairwise_wkle h2)]
  exact insertAfterEq_inv h2 hf2

theorem mem_add_command {d c : Cmd} {q : List Cmd} (hd : d ∈ add_command q c) :
    d = c ∨ d ∈ q := by
  unfold add_command at hd
  have := (sortStable_perm _).mem_iff.mp hd
  rcases List.mem_append.mp this with h1 | h1
  · right
    revert h1
    split
    · exact fun h1 => List.mem_of_mem_drop h1
    · exact fun h1 => h1
  · left
    simpa using h1

theorem runQueue_inv_aux (cmds : List (Nat × Nat)) (s : List Cmd × Nat)
    (h : List.Pairwise ltC s.1) (hf : ∀ d ∈ s.1, d.arrival < s.2) :
    List.Pairwise ltC
        (cmds.foldl (fun s p => (add_command s.1 ⟨p.1, p.2, s.2⟩, s.2 + 1)) s).1 ∧
      ∀ d ∈ (cmds.foldl (fun s p => (add_command s.1 ⟨p.1, p.2, s.2⟩, s.2 + 1)) s).1,
        d.arrival <
          (cmds.foldl (fun s p => (add_command s.1 ⟨p.1, p.2, s.2⟩, s.2 + 1)) s).2 := by
  induction cmds generalizing s with
  | nil => exact ⟨h, hf⟩
  | cons p rest ih =>
    simp only [List.foldl_cons]
    refine ih _ ?_ ?_
    · exact add_command_inv h (fun d hd => hf d hd)
    · intro d hd
      rcases mem_add_command hd with rfl | hd
      · simp
      · exact Nat.lt_succ_of_lt (hf d hd)

/-- Claim C5: after every enqueue the queue is sorted by descending
priority with equal-priority commands in arrival order (`Pairwise ltC`
states exactly that), `execute_next` removes and returns the front —
which in such a queue is a command of maximal priority and, among those,
of earliest arrival — or signals empty, and enqueueing priorities
`[5, 1, 5, 3]` and dispatching repeatedly yields the two priority-5
commands in arrival order, then priority 3, then priority 1. -/
theorem queue_ordering_and_dispatch :
    (∀ cmds : List (Nat × Nat), List.Pairwise ltC (runQueue cmds)) ∧
      execute_next [] = none ∧
      (∀ (q : List Cmd) (c : Cmd) (rest : List Cmd), List.Pairwise ltC q →
        execute_next q = some (c, rest) →
        q = c :: rest ∧
          (∀ d ∈ q, d.priority ≤ c.priority) ∧
          (∀ d ∈ q, d.priority = c.priority → c.arrival ≤ d.arrival)) ∧
      (runQueue [(1, 5), (2, 1), (3, 5), (4, 3)]).map Cmd.command_id = [1, 3, 4, 2] := by
  refine ⟨?_, rfl, ?_, by decide⟩
  · intro cmds
    exact (runQueue_inv_aux cmds ([], 0) (by simp) (by simp)).1
  · intro q c rest h hx
    cases q with
    | nil => cases hx
    | cons c0 rest0 =>
      simp only [execute_next, Option.some.injEq, Prod.mk.injEq] at hx
      obtain ⟨rfl, rfl⟩ := hx
      obtain ⟨hc, _⟩ := List.pairwise_cons.mp h
      refine ⟨rfl, ?_, ?_⟩
      · intro d hd
        rcases List.mem_cons.mp hd with rfl | hd
        · exact le_refl _
        · rcases hc d hd with h1 | ⟨h1, _⟩ <;> omega
      · intro d hd hdp
        rcases List.mem_cons.mp hd with rfl | hd
        · exact le_refl _
        · rcases hc d hd with h1 | ⟨h1, h2⟩
          · omega
          · exact le_of_lt h2

/-- Witness for C5: dispatching from the concrete sorted two-command
queue returns the priority-5 command and its priority dominates the
queue. -/
theorem queue_ordering_and_dispatch_witness :
    ([⟨1, 5, 0⟩, ⟨2, 1, 1⟩] : List Cmd) = ⟨1, 5, 0⟩ :: [⟨2, 1, 1⟩] ∧
      (∀ d ∈ ([⟨1, 5, 0⟩, ⟨2, 1, 1⟩] : List Cmd),
        d.priority ≤ (⟨1, 5, 0⟩ : Cmd).priority) ∧
      (∀ d ∈ ([⟨1, 5, 0⟩, ⟨2, 1, 1⟩] : List Cmd),
        d.priority = (⟨1, 5, 0⟩ : Cmd).priority →
          (⟨1, 5, 0⟩ : Cmd).arrival ≤ d.arrival) :=
  queue_ordering_and_dispatch.2.2.1 [⟨1, 5, 0⟩, ⟨2, 1, 1⟩] ⟨1, 5, 0⟩ [⟨2, 1, 1⟩]
    (by simp [List.pairwise_cons, ltC]) rfl

/-- Claim C1 (behavior of the code at the failing input): with the queue
at capacity — ids 1..19 enqueued first at priority 0 and id 20 enqueued
last at priority 5 — enqueueing id 21 evicts command 20, the entry at
index 0 of the priority-sorted queue, which is the highest-priority and
newest command; the oldest command (id 1) stays.  This contradicts the
claimed FIFO eviction of the oldest-enqueued command, and the source's
own log line "dropping oldest command". -/
theorem queue_eviction_evicts_sorted_front :
    (runQueue
        [(1, 0), (2, 0), (3, 0), (4, 0), (5, 0), (6, 0), (7, 0), (8, 0), (9, 0),
          (10, 0), (11, 0), (12, 0), (13, 0), (14, 0), (15, 0), (16, 0), (17, 0),
          (18, 0), (19, 0), (20, 5), (21, 0)]).map Cmd.command_id =
      [1, 2, 3, 4, 5, 6, 7, 8, 9, 10, 11, 12, 13, 14, 15, 16, 17, 18, 19, 21] := by
  decide

/-! ## GCS performance metrics (src/src/gcs.rs) -/

/-- `LOSS_OF_CONTACT_THRESHOLD` (gcs.rs line 6). -/
def LOSS_OF_CONTACT_THRESHOLD : Nat := 3

/-- `EXPECTED_PACKET_INTERVAL_MS` (gcs.rs line 7). -/
def EXPECTED_PACKET_INTERVAL_MS : Nat := 500

/-- `Fault` (gcs.rs lines 71-78). -/
inductive Fault
  | HighTemperature (temp : Int)
  | LowBattery (mv : Nat)
  | AntennaMisalignment (angle : Int)
  | PacketLoss (count : Nat)
  | LossOfContact
  deriving DecidableEq, Repr

/-- `GCSPerformanceMetrics` (gcs.rs lines 80-105).  The `start_time`
instant is elided: `report` receives the elapsed time as a parameter.
Instants (`last_packet_time`, `expected_packet_times`) are modelled as
abstract microsecond counts. -/
structure GcsMetrics where
  packets_received : Nat
  valid_packets : Nat
  invalid_packets : Nat
  edge_cases_detected : Nat
  critical_events : Nat
  total_bytes_received : Nat
  decode_latency_us : Nat
  min_decode_us : Nat
  max_decode_us : Nat
  packets_lost : Nat
  consecutive_lost : Nat
  loss_of_contact_count : Nat
  commands_received : Nat
  commands_dispatched : Nat
  commands_overdue : Nat
  commands_rejected : Nat
  faults_detected : Nat
  fault_response_times_ms : List Nat
  interlock_count : Nat
  expected_packet_times : List Nat
  packet_backlog : Nat
  jitter_us : List Nat
  last_packet_time : Option Nat
  deriving DecidableEq, Repr

/-- `GCSPerformanceMetrics::new` (gcs.rs lines 108-135); `min_decode_us`
starts at `u128::MAX`. -/
def GcsMetrics.new : GcsMetrics :=
  { packets_received := 0, valid_packets := 0, invalid_packets := 0
    edge_cases_detected := 0, critical_events := 0, total_bytes_received := 0
    decode_latency_us := 0, min_decode_us := 2 ^ 128 - 1, max_decode_us := 0
    packets_lost := 0, consecutive_lost := 0, loss_of_contact_count := 0
    commands_received := 0, commands_dispatched := 0, commands_overdue := 0
    commands_rejected := 0, faults_detected := 0, fault_response_times_ms := []
    interlock_count := 0, expected_packet_times := [], packet_backlog := 0
    jitter_us := [], last_packet_time := none }

/-- `GCSPerformanceMetrics::record_packet_received` (gcs.rs lines
137-185).  `now` models the `Instant::now()` taken on line 158;
`interval_us` is `last_time.elapsed().as_micros()`, i.e. `now - last`.
The over-threshold decode-latency warning only prints and is elided. -/
def GcsMetrics.record_packet_received (m : GcsMetrics) (now bytes decode_time_us : Nat)
    (is_valid is_edge_case is_critical : Bool) : GcsMetrics :=
  let m1 := { m with packets_received := m.packets_received + 1,
                     total_bytes_received := m.total_bytes_received + bytes }
  let newJitter : List Nat :=
    match m.last_packet_time with
    | some last =>
        let interval_us := now - last
        let expected_us := EXPECTED_PACKET_INTERVAL_MS * 1000
        let jitter := if expected_us < interval_us then interval_us - expected_us
                      else expected_us - interval_us
        m.jitter_us ++ [jitter]
    | none => m.jitter_us
  let m2 := { m1 with jitter_us := newJitter, last_packet_time := some now }
  let m3 :=
    if is_valid then
      { m2 with valid_packets := m2.valid_packets + 1,
                decode_latency_us := m2.decode_latency_us + decode_time_us,
                min_decode_us := min m2.min_decode_us decode_time_us,
                max_decode_us := max m2.max_decode_us decode_time_us }
    else
      { m2 with invalid_packets := m2.invalid_packets + 1,
                packets_lost := m2.packets_lost + 1,
                consecutive_lost := m2.consecutive_lost + 1 }
  let m4 := if is_edge_case then
      { m3 with edge_cases_detected := m3.edge_cases_detected + 1 } else m3
  if is_critical then { m4 with critical_events := m4.critical_events + 1 } else m4

/-- `GCSPerformanceMetrics::record_packet_lost` (gcs.rs lines 187-198):
the loss-of-contact count is incremented on every call that leaves
`consecutive_lost` at or above the threshold (a level check, `>=`). -/
def GcsMetrics.record_packet_lost (m : GcsMetrics) : GcsMetrics :=
  let m1 := { m with packets_lost := m.packets_lost + 1,
                     consecutive_lost := m.consecutive_lost + 1 }
  if LOSS_OF_CONTACT_THRESHOLD ≤ m1.consecutive_lost then
    { m1 with loss_of_contact_count := m1.loss_of_contact_count + 1 }
  else m1

/-- `GCSPerformanceMetrics::record_packet_ack` (gcs.rs lines 200-202). -/
def GcsMetrics.record_packet_ack (m : GcsMetrics) : GcsMetrics :=
  { m with consecutive_lost := 0 }

/-- `record_command_received` (gcs.rs lines 204-206). -/
def GcsMetrics.record_command_received (m : GcsMetrics) : GcsMetrics :=
  { m with commands_received := m.commands_received + 1 }

/-- `record_command_dispatched` (gcs.rs lines 208-224); the dispatch-time
threshold warning only prints. -/
def GcsMetrics.record_command_dispatched (m : GcsMetrics) (dispatch_time_us : Nat)
    (was_overdue : Bool) : GcsMetrics :=
  let m1 := { m with commands_dispatched := m.commands_dispatched + 1 }
  if was_overdue then { m1 with commands_overdue := m1.commands_overdue + 1 } else m1

/-- `record_command_rejected` (gcs.rs lines 226-229). -/
def GcsMetrics.record_command_rejected (m : GcsMetrics) : GcsMetrics :=
  { m with commands_rejected := m.commands_rejected + 1 }

/-- `record_fault` (gcs.rs lines 231-244): every fault variant only
increments `faults_detected` (the match merely prints). -/
def GcsMetrics.record_fault (m : GcsMetrics) (fault : Fault) : GcsMetrics :=
  { m with faults_detected := m.faults_detected + 1 }

/-- `record_fault_response` (gcs.rs lines 246-254). -/
def GcsMetrics.record_fault_response (m : GcsMetrics) (response_time_ms : Nat) :
    GcsMetrics :=
  { m with fault_response_times_ms := m.fault_response_times_ms ++ [response_time_ms] }

/-- `record_interlock` (gcs.rs lines 256-259). -/
def GcsMetrics.record_interlock (m : GcsMetrics) : GcsMetrics :=
  { m with interlock_count := m.interlock_count + 1 }

/-- `record_re_request` (gcs.rs lines 261-266) only prints. -/
def GcsMetrics.record_re_request (m : GcsMetrics) (packet_id : Nat) : GcsMetrics := m

/-- The metrics-recording operations of `GCSPerformanceMetrics`, with the
data each one receives from its caller. -/
inductive GcsOp
  | packetReceived (now bytes decodeTimeUs : Nat) (isValid isEdge isCritical : Bool)
  | packetLost
  | packetAck
  | commandReceived
  | commandDispatched (dispatchTimeUs : Nat) (wasOverdue : Bool)
  | commandRejected
  | faultRecorded (f : Fault)
  | faultResponse (ms : Nat)
  | interlock
  | reRequest (packetId : Nat)

/-- Dispatch one recording operation. -/
def applyOp (m : GcsMetrics) : GcsOp → GcsMetrics
  | .packetReceived now bytes dt v e c => m.record_packet_received now bytes dt v e c
  | .packetLost => m.record_packet_lost
  | .packetAck => m.record_packet_ack
  | .commandReceived => m.record_command_received
  | .commandDispatched dt ov => m.record_command_dispatched dt ov
  | .commandRejected => m.record_command_rejected
  | .faultRecorded f => m.record_fault f
  | .faultResponse ms => m.record_fault_response ms
  | .interlock => m.record_interlock
  | .reRequest pid => m.record_re_request pid

/-- Apply a sequence of recording operations. -/
def applyOps (m : GcsMetrics) (ops : List GcsOp) : GcsMetrics :=
  ops.foldl applyOp m

/-- The monotone counters named by the spec: none of them decreases from
`a` to `b`. -/
def countersMono (a b : GcsMetrics) : Prop :=
  a.packets_received ≤ b.packets_received ∧
  a.valid_packets ≤ b.valid_packets ∧
  a.invalid_packets ≤ b.invalid_packets ∧
  a.packets_lost ≤ b.packets_lost ∧
  a.loss_of_contact_count ≤ b.loss_of_contact_count ∧
  a.faults_detected ≤ b.faults_detected ∧
  a.commands_received ≤ b.commands_received ∧
  a.commands_dispatched ≤ b.commands_dispatched ∧
  a.commands_overdue ≤ b.commands_overdue ∧
  a.commands_rejected ≤ b.commands_rejected ∧
  a.edge_cases_detected ≤ b.edge_cases_detected ∧
  a.critical_events ≤ b.critical_events

/-! ## The GCS receive loop (GCS::run, gcs.rs lines 359-440) -/

/-- One iteration outcome of `socket.recv_from`: an error, or a
successful read of `bytesRead` bytes into the 14-byte buffer (`now` and
`decodeTimeUs` model the instants the loop samples). -/
inductive RecvOutcome
  | recvErr
  | recvOk (now bytesRead decodeTimeUs : Nat) (buffer : List Nat)

/-- GCS loop state: the metrics plus a count of the
`Fault::LossOfContact` events the loop has passed to `record_fault`. -/
structure RunState where
  m : GcsMetrics
  locFaults : Nat
  deriving DecidableEq, Repr

/-- The fresh GCS state (`GCS::new` builds `GCSPerformanceMetrics::new`
and has raised no fault). -/
def RunState.init : RunState := ⟨GcsMetrics.new, 0⟩

/-- One iteration of `GCS::run` (gcs.rs lines 375-439).  On `Ok`:
`record_packet_ack` first, then decode of `buffer[..bytes_read]`; a valid
record is recorded (with its edge/critical classification) and a critical
one additionally raises `HighTemperature`; an invalid one is recorded
with zeroed decode time and raises `PacketLoss(1)`.  On `Err`:
`record_packet_lost`, then `Fault::LossOfContact` is raised only when
`consecutive_lost` equals the threshold exactly (edge check, `==`). -/
def runStep (s : RunState) : RecvOutcome → RunState
  | .recvErr =>
      let m1 := s.m.record_packet_lost
      if m1.consecutive_lost = LOSS_OF_CONTACT_THRESHOLD then
        { m := m1.record_fault Fault.LossOfContact, locFaults := s.locFaults + 1 }
      else { s with m := m1 }
  | .recvOk now bytesRead decodeTimeUs buffer =>
      let m1 := s.m.record_packet_ack
      match Telemetry.from_bytes (buffer.take bytesRead) with
      | some t =>
          let m2 := m1.record_packet_received now bytesRead decodeTimeUs true
            t.is_edge_case t.is_critical
          if t.is_critical then
            { s with m := m2.record_fault (Fault.HighTemperature t.temperature) }
          else { s with m := m2 }
      | none =>
          let m2 := m1.record_packet_received now bytesRead 0 false false false
          { s with m := m2.record_fault (Fault.PacketLoss 1) }

/-- Run a sequence of receive outcomes. -/
def runSteps (s : RunState) (os : List RecvOutcome) : RunState :=
  os.foldl runStep s

/-- A benign successful receive: 14 bytes holding an encoded non-critical,
non-edge record. -/
def okPkt : RecvOutcome :=
  RecvOutcome.recvOk 0 14 0 (Telemetry.to_bytes ⟨0, 20, 8000, 0⟩)

/-- Claim C7: every step of every recording operation leaves each of the
monotone counters no smaller, and along every operation sequence from the
fresh metrics state `packets_received = valid_packets + invalid_packets`
holds. -/
theorem gcs_metrics_monotone_and_balanced :
    (∀ (m : GcsMetrics) (op : GcsOp), countersMono m (applyOp m op)) ∧
      ∀ ops : List GcsOp,
        (applyOps GcsMetrics.new ops).packets_received =
          (applyOps GcsMetrics.new ops).valid_packets +
            (applyOps GcsMetrics.new ops).invalid_packets := by
  constructor
  · intro m op
    cases op <;>
      simp only [applyOp, GcsMetrics.record_packet_received,
        GcsMetrics.record_packet_lost, GcsMetrics.record_packet_ack,
        GcsMetrics.record_command_received, GcsMetrics.record_command_dispatched,
        GcsMetrics.record_command_rejected, GcsMetrics.record_fault,
        GcsMetrics.record_fault_response, GcsMetrics.record_interlock,
        GcsMetrics.record_re_request, countersMono] <;>
      (try split_ifs) <;> simp
  · have hbal : ∀ (op : GcsOp) (m : GcsMetrics),
        m.packets_received = m.valid_packets + m.invalid_packets →
        (applyOp m op).packets_received =
          (applyOp m op).valid_packets + (applyOp m op).invalid_packets := by
      intro op m h
      cases op <;>
        simp only [applyOp, GcsMetrics.record_packet_received,
          GcsMetrics.record_packet_lost, GcsMetrics.record_packet_ack,
          GcsMetrics.record_command_received, GcsMetrics.record_command_dispatched,
          GcsMetrics.record_command_rejected, GcsMetrics.record_fault,
          GcsMetrics.record_fault_response, GcsMetrics.record_interlock,
          GcsMetrics.record_re_request] <;>
        (try split_ifs) <;> (try simp) <;> omega
    have haux : ∀ (l : List GcsOp) (m : GcsMetrics),
        m.packets_received = m.valid_packets + m.invalid_packets →
        (applyOps m l).packets_received =
          (applyOps m l).valid_packets + (applyOps m l).invalid_packets := by
      intro l
      induction l with
      | nil => exact fun m h => h
      | cons op rest ih => exact fun m h => ih (applyOp m op) (hbal op m h)
    exact fun ops => haux ops GcsMetrics.new rfl

theorem runStep_err_proj (s : RunState) :
    (runStep s .recvErr).m.consecutive_lost = s.m.consecutive_lost + 1 ∧
      (runStep s .recvErr).m.loss_of_contact_count =
        (if 3 ≤ s.m.consecutive_lost + 1 then s.m.loss_of_contact_count + 1
         else s.m.loss_of_contact_count) ∧
      (runStep s .recvErr).locFaults =
        (if s.m.consecutive_lost + 1 = 3 then s.locFaults + 1 else s.locFaults) := by
  simp only [runStep, GcsMetrics.record_packet_lost, GcsMetrics.record_fault,
    LOSS_OF_CONTACT_THRESHOLD]
  split_ifs <;> simp_all

theorem runStep_okPkt_proj (s : RunState) :
    (runStep s okPkt).m.consecutive_lost = 0 ∧
      (runStep s okPkt).m.loss_of_contact_count = s.m.loss_of_contact_count ∧
      (runStep s okPkt).locFaults = s.locFaults := by
  have hd : Telemetry.from_bytes ((Telemetry.to_bytes ⟨0, 20, 8000, 0⟩).take 14) =
      some ⟨0, 20, 8000, 0⟩ := by decide
  have hcrit : Telemetry.is_critical ⟨0, 20, 8000, 0⟩ = false := by decide
  have hedge : Telemetry.is_edge_case ⟨0, 20, 8000, 0⟩ = false := by decide
  simp only [runStep, okPkt, hd, hcrit, hedge, GcsMetrics.record_packet_ack,
    GcsMetrics.record_packet_received, GcsMetrics.record_fault]
  simp

/-- Three consecutive failures from a state with `consecutive_lost = 0`:
no fault event on the first two failures, exactly one on the third, the
loss-of-contact count grows by one, and `consecutive_lost` reaches 3. -/
theorem err_burst (t : RunState) (ht : t.m.consecutive_lost = 0) :
    (runSteps t [.recvErr]).locFaults = t.locFaults ∧
      (runSteps t [.recvErr, .recvErr]).locFaults = t.locFaults ∧
      (runSteps t [.recvErr, .recvErr, .recvErr]).locFaults = t.locFaults + 1 ∧
      (runSteps t [.recvErr, .recvErr, .recvErr]).m.loss_of_contact_count =
        t.m.loss_of_contact_count + 1 ∧
      (runSteps t [.recvErr, .recvErr, .recvErr]).m.consecutive_lost = 3 := by
  obtain ⟨c1, l1, f1⟩ := runStep_err_proj t
  obtain ⟨c2, l2, f2⟩ := runStep_err_proj (runStep t .recvErr)
  obtain ⟨c3, l3, f3⟩ := runStep_err_proj (runStep (runStep t .recvErr) .recvErr)
  rw [ht] at c1 l1 f1
  rw [c1] at c2 l2 f2
  rw [c2] at c3 l3 f3
  norm_num at c1 c2 c3 l1 l2 l3 f1 f2 f3
  simp only [runSteps, List.foldl_cons, List.foldl_nil]
  refine ⟨f1, ?_, ?_, ?_, c3⟩
  · rw [f2, f1]
  · rw [f3, f2, f1]
  · rw [l3, l2, l1]

/-- Counterexample to claim C2 as stated: from the fresh GCS state, three
consecutive receive failures set `loss_of_contact_count` to 1, but the
fourth consecutive failure increments it again to 2 — the count is
level-triggered (`>=` threshold), so the fourth failure does not leave
the loss-of-contact count unchanged, even though it raises no
`Fault::LossOfContact` event (`locFaults` stays 1). -/
theorem loss_of_contact_count_level_counterexample :
    (runSteps RunState.init
        [.recvErr, .recvErr, .recvErr]).m.loss_of_contact_count = 1 ∧
      (runSteps RunState.init
        [.recvErr, .recvErr, .recvErr, .recvErr]).m.loss_of_contact_count = 2 ∧
      (runSteps RunState.init
        [.recvErr, .recvErr, .recvErr, .recvErr]).locFaults = 1 := by
  refine ⟨by decide, by decide, by decide⟩

/-- Claim C2 (amended): from any state with `consecutive_lost = 0`, three
consecutive failures raise exactly one `Fault::LossOfContact` event (none
on the first two) and add one to `loss_of_contact_count`; a fourth
consecutive failure raises no further event but — unlike the original
claim — increments `loss_of_contact_count` again (the count is
level-triggered); a success then resets `consecutive_lost` to 0, and
three more consecutive failures raise a second event and a third count
increment. -/
theorem loss_of_contact_edge_triggered_amended (s : RunState)
    (h : s.m.consecutive_lost = 0) :
    (runSteps s [.recvErr]).locFaults = s.locFaults ∧
      (runSteps s [.recvErr, .recvErr]).locFaults = s.locFaults ∧
      (runSteps s [.recvErr, .recvErr, .recvErr]).locFaults = s.locFaults + 1 ∧
      (runSteps s [.recvErr, .recvErr, .recvErr]).m.loss_of_contact_count =
        s.m.loss_of_contact_count + 1 ∧
      (runSteps s [.recvErr, .recvErr, .recvErr, .recvErr]).locFaults =
        s.locFaults + 1 ∧
      (runSteps s [.recvErr, .recvErr, .recvErr, .recvErr]).m.loss_of_contact_count =
        s.m.loss_of_contact_count + 2 ∧
      (runSteps s
          [.recvErr, .recvErr, .recvErr, .recvErr, okPkt]).m.consecutive_lost = 0 ∧
      (runSteps s [.recvErr, .recvErr, .recvErr, .recvErr, okPkt,
          .recvErr, .recvErr, .recvErr]).locFaults = s.locFaults + 2 ∧
      (runSteps s [.recvErr, .recvErr, .recvErr, .recvErr, okPkt,
          .recvErr, .recvErr, .recvErr]).m.loss_of_contact_count =
        s.m.loss_of_contact_count + 3 := by
  obtain ⟨b1, b2, b3, b4, b5⟩ := err_burst s h
  simp only [runSteps, List.foldl_cons, List.foldl_nil] at b1 b2 b3 b4 b5 ⊢
  obtain ⟨c4, l4, f4⟩ :=
    runStep_err_proj (runStep (runStep (runStep s .recvErr) .recvErr) .recvErr)
  rw [b5] at c4 l4 f4
  norm_num at c4 l4 f4
  obtain ⟨o1, o2, o3⟩ := runStep_okPkt_proj
    (runStep (runStep (runStep (runStep s .recvErr) .recvErr) .recvErr) .recvErr)
  obtain ⟨d1, d2, d3, d4, d5⟩ := err_burst
    (runStep (runStep (runStep (runStep (runStep s .recvErr) .recvErr) .recvErr)
      .recvErr) okPkt) o1
  simp only [runSteps, List.foldl_cons, List.foldl_nil] at d1 d2 d3 d4 d5
  refine ⟨b1, b2, b3, b4, ?_, ?_, o1, ?_, ?_⟩
  · rw [f4, b3]
  · rw [l4, b4]
  · rw [d3, o3, f4, b3]
  · rw [d4, o2, l4, b4]

/-- Witness for C2 at the fresh GCS state: four failures, one success,
then three failures raise two `Fault::LossOfContact` events in total. -/
theorem loss_of_contact_edge_triggered_witness :
    (runSteps RunState.init [.recvErr, .recvErr, .recvErr, .recvErr, okPkt,
        .recvErr, .recvErr, .recvErr]).locFaults = RunState.init.locFaults + 2 :=
  (loss_of_contact_edge_triggered_amended RunState.init rfl).2.2.2.2.2.2.2.1

/-! ## Report snapshots (gcs.rs `report`, mock_ocs/metrics.rs `report`) -/

/-- The derived quantities of `GCSPerformanceMetrics::report` (gcs.rs
lines 268-335).  The three integer averages carry the zero guards of the
source.  `packets_per_second` is `packets_received as f64 /
elapsed.as_secs_f64()` with no guard: it is modelled as an exact division
wrapped in `Option`, where `none` records that the division is reached
with a zero divisor (the IEEE division then yields inf or NaN, not a
reported zero). -/
structure GcsReport where
  avg_decode : Nat
  avg_jitter : Nat
  avg_fault_response : Nat
  packets_per_second : Option ℚ
  deriving DecidableEq, Repr

/-- `GCSPerformanceMetrics::report`, derived values only (printing
elided); `elapsed_secs` models `start_time.elapsed().as_secs_f64()`. -/
def GcsMetrics.report (m : GcsMetrics) (elapsed_secs : ℚ) : GcsReport :=
  { avg_decode :=
      if 0 < m.valid_packets then m.decode_latency_us / m.valid_packets else 0
    avg_jitter :=
      if m.jitter_us.isEmpty then 0 else m.jitter_us.sum / m.jitter_us.length
    avg_fault_response :=
      if m.fault_response_times_ms.isEmpty then 0
      else m.fault_response_times_ms.sum / m.fault_response_times_ms.length
    packets_per_second :=
      if elapsed_secs = 0 then none
      else some ((m.packets_received : ℚ) / elapsed_secs) }

/-- `PerformanceMetrics` (src/src/mock_ocs/metrics.rs lines 3-18);
`start_time` elided as in `GcsMetrics`. -/
structure OcsMetrics where
  packets_sent : Nat
  total_bytes_sent : Nat
  send_latency_us : Nat
  min_latency_us : Nat
  max_latency_us : Nat
  edge_case_count : Nat
  commands_received : Nat
  commands_executed : Nat
  commands_overdue : Nat
  faults_injected : Nat
  safety_alerts : Nat
  recovery_times_ms : List Nat
  scheduling_drift_us : List Int
  deriving DecidableEq, Repr

/-- `PerformanceMetrics::new` (metrics.rs lines 21-38). -/
def OcsMetrics.new : OcsMetrics :=
  { packets_sent := 0, total_bytes_sent := 0, send_latency_us := 0
    min_latency_us := 2 ^ 128 - 1, max_latency_us := 0, edge_case_count := 0
    commands_received := 0, commands_executed := 0, commands_overdue := 0
    faults_injected := 0, safety_alerts := 0, recovery_times_ms := []
    scheduling_drift_us := [] }

/-- The derived quantities of `PerformanceMetrics::report` (metrics.rs
lines 78-133): guarded average send latency, average scheduling drift
(i128 division truncates toward zero, `Int.div`), guarded average
recovery time, and the unguarded f64 packets-per-second, modelled as for
`GcsReport`. -/
structure OcsReport where
  avg_latency : Nat
  avg_drift : Int
  avg_recovery : Nat
  packets_per_second : Option ℚ
  deriving DecidableEq, Repr

/-- `PerformanceMetrics::report`, derived values only. -/
def OcsMetrics.report (m : OcsMetrics) (elapsed_secs : ℚ) : OcsReport :=
  { avg_latency :=
      if 0 < m.packets_sent then m.send_latency_us / m.packets_sent else 0
    avg_drift :=
      if m.scheduling_drift_us.isEmpty then 0
      else Int.tdiv m.scheduling_drift_us.sum m.scheduling_drift_us.length
    avg_recovery :=
      if m.recovery_times_ms.isEmpty then 0
      else m.recovery_times_ms.sum / m.recovery_times_ms.length
    packets_per_second :=
      if elapsed_secs = 0 then none
      else some ((m.packets_sent : ℚ) / elapsed_secs) }

/-- Counterexample to claim C9 as stated: at the freshly initialized
metrics of either side with zero elapsed wall-clock time, the
packets-per-second computation reaches its division with a zero divisor
(`none` in the model): the source divides by `elapsed.as_secs_f64()`
unconditionally, so the rate is not guarded and not reported as zero. -/
theorem packets_per_second_unguarded_counterexample :
    (GcsMetrics.new.report 0).packets_per_second = none ∧
      (OcsMetrics.new.report 0).packets_per_second = none :=
  ⟨rfl, rfl⟩

/-- Claim C9 (amended): in both report computations the integer averages
(decode latency, jitter, fault response on the GCS side; send latency,
scheduling drift, recovery time on the OCS side) guard their divisions
and are reported as zero when no samples exist, for every metrics state
and elapsed time; the packets-per-second rate, by contrast, is an
unguarded division that reaches a zero divisor exactly when the elapsed
wall-clock time is zero. -/
theorem report_division_guards_amended :
    (∀ (m : GcsMetrics) (e : ℚ),
        (m.valid_packets = 0 → (m.report e).avg_decode = 0) ∧
        (m.jitter_us = [] → (m.report e).avg_jitter = 0) ∧
        (m.fault_response_times_ms = [] → (m.report e).avg_fault_response = 0) ∧
        ((m.report e).packets_per_second = none ↔ e = 0)) ∧
      (∀ (m : OcsMetrics) (e : ℚ),
        (m.packets_sent = 0 → (m.report e).avg_latency = 0) ∧
        (m.scheduling_drift_us = [] → (m.report e).avg_drift = 0) ∧
        (m.recovery_times_ms = [] → (m.report e).avg_recovery = 0) ∧
        ((m.report e).packets_per_second = none ↔ e = 0)) := by
  constructor
  · intro m e
    refine ⟨fun h => by simp [GcsMetrics.report, h],
      fun h => by simp [GcsMetrics.report, h],
      fun h => by simp [GcsMetrics.report, h], ?_⟩
    simp only [GcsMetrics.report]
    split_ifs <;> simp_all
  · intro m e
    refine ⟨fun h => by simp [OcsMetrics.report, h],
      fun h => by simp [OcsMetrics.report, h],
      fun h => by simp [OcsMetrics.report, h], ?_⟩
    simp only [OcsMetrics.report]
    split_ifs <;> simp_all

/-- Witness for C9 at the fresh GCS metrics and one second of elapsed
time: the guarded average is zero and the rate division is reached with
a nonzero divisor. -/
theorem report_division_guards_witness :
    (GcsMetrics.new.report 1).avg_decode = 0 ∧
      ((GcsMetrics.new.report 1).packets_per_second = none ↔ (1 : ℚ) = 0) :=
  ⟨(report_division_guards_amended.1 GcsMetrics.new 1).1 rfl,
    (report_division_guards_amended.1 GcsMetrics.new 1).2.2.2⟩

end WeWinThis
